import Mathlib

/-!
Shallow embedding of the word-chaining game engine of this repository.

Two engine variants exist in the source:
  * `src/app.py`  — solo engine: one implicit player, the turn counter
    increments on every accepted word (namespace `App` below);
  * `src/main.py` — two-player engine: players `A` and `B` alternate and
    the turn counter increments each time control returns to `A`
    (namespace `Main` below).

Python strings are modelled by Lean `String`; Python `s[0]` / `s[-1]`
(code-point indexing) correspond to `String.front` / `String.back`, and
`str.strip()` to `pyStrip` below, which drops whitespace code points from
both ends of the code-point list.  The session state held in
`st.session_state` is made an explicit `GameState` record, and the body of
the "제출" (submit) button handler becomes the pure function `submitWord`
returning the updated state together with the outcome of the branch taken.
-/

/-- Python `str.strip()`: remove leading and trailing whitespace code
points (whitespace as judged by `Char.isWhitespace`). -/
def pyStrip (s : String) : String :=
  ⟨((s.data.dropWhile Char.isWhitespace).reverse.dropWhile Char.isWhitespace).reverse⟩

/-- Outcome of one submission, naming the branch the handler takes:
the empty-input rejection, the two game-over branches, or acceptance. -/
inductive Outcome where
  | rejectedEmptyInput : Outcome
  | gameOverDuplicateWord : String → Outcome
  | gameOverChainBroken : String → Outcome
  | accepted : String → Outcome
deriving Repr, DecidableEq

/-- Whether an outcome is the accepting one. -/
def Outcome.isAccepted : Outcome → Bool
  | .accepted _ => true
  | _ => false

namespace App

/-- Session state of `src/app.py`: `word_history`, `current_turn`,
`last_word`, `game_over` and `message` from `st.session_state`. -/
structure GameState where
  word_history : List String
  current_turn : Nat
  last_word : String
  game_over : Bool
  message : String
deriving Repr, DecidableEq

/-- `initialize_game` of `src/app.py` (lines 4–13). -/
def initialize_game : GameState :=
  { word_history := []
    current_turn := 1
    last_word := ""
    game_over := false
    message := "게임을 시작합니다! 첫 단어를 입력해주세요." }

/-- The submit-button handler of `src/app.py` `main` (lines 57–95):
empty-input check on the raw input, strip, empty check again, duplicate
check against `word_history`, chaining check against `last_word`, and
otherwise acceptance (append, update `last_word`, bump `current_turn`). -/
def submitWord (s : GameState) (user_input : String) : GameState × Outcome :=
  if user_input = "" then
    ({ s with message := "단어를 입력해주세요!" }, .rejectedEmptyInput)
  else
    let new_word := pyStrip user_input
    if new_word = "" then
      ({ s with message := "단어를 입력해주세요!" }, .rejectedEmptyInput)
    else if new_word ∈ s.word_history then
      ({ s with game_over := true
                message := "게임 오버! '" ++ new_word ++ "'는 이미 사용된 단어입니다." },
       .gameOverDuplicateWord new_word)
    else
      let acceptResult : GameState × Outcome :=
        ({ s with word_history := s.word_history ++ [new_word]
                  last_word := new_word
                  current_turn := s.current_turn + 1
                  message := "'" ++ new_word ++ "'가 성공적으로 추가되었습니다." },
         .accepted new_word)
      if s.last_word ≠ "" then
        if new_word.front ≠ s.last_word.back then
          ({ s with game_over := true
                    message := "게임 오버! '" ++ new_word ++ "'는 '" ++
                      String.mk [s.last_word.back] ++ "'로 시작하지 않습니다." },
           .gameOverChainBroken new_word)
        else acceptResult
      else acceptResult

/-- States reachable through `src/app.py` `main`: the freshly initialized
state, a reset from any reachable state (the restart buttons), and a
submission against a non-terminal state (`main` returns before the submit
button whenever `game_over` is set). -/
inductive Reachable : GameState → Prop where
  | init : Reachable initialize_game
  | reset {s : GameState} : Reachable s → Reachable initialize_game
  | submit {s : GameState} (input : String) :
      Reachable s → s.game_over = false → Reachable (submitWord s input).1

end App

namespace Main

/-- Player identifier of `src/main.py`: `current_player` is `'A'` or `'B'`. -/
inductive Player where
  | A : Player
  | B : Player
deriving Repr, DecidableEq

/-- Session state of `src/main.py`: the fields of the solo engine plus
`current_player` and the widget-key counter `input_key_counter`. -/
structure GameState where
  word_history : List String
  current_turn : Nat
  last_word : String
  game_over : Bool
  message : String
  current_player : Player
  input_key_counter : Nat
deriving Repr, DecidableEq

/-- `initialize_game` of `src/main.py` (lines 4–17).  The key counter is
read from the previous session state (`st.session_state.get(..., 0)`),
so the previous counter value is an explicit argument here. -/
def initialize_game (prev_counter : Nat) : GameState :=
  { word_history := []
    current_turn := 1
    last_word := ""
    game_over := false
    message := "게임을 시작합니다! 플레이어 A가 첫 단어를 입력해주세요."
    current_player := Player.A
    input_key_counter := prev_counter + 1 }

/-- The other player. -/
def Player.other : Player → Player
  | .A => .B
  | .B => .A

/-- Player name as displayed in messages. -/
def Player.name : Player → String
  | .A => "A"
  | .B => "B"

/-- The submit-button handler of `src/main.py` `main` (lines 63–108):
identical validation to the solo engine, but on acceptance the player is
toggled, `current_turn` increments only when `B` hands back to `A`, and
the widget-key counter is bumped. -/
def submitWord (s : GameState) (user_input : String) : GameState × Outcome :=
  if user_input = "" then
    ({ s with message := "단어를 입력해주세요!" }, .rejectedEmptyInput)
  else
    let new_word := pyStrip user_input
    if new_word = "" then
      ({ s with message := "단어를 입력해주세요!" }, .rejectedEmptyInput)
    else if new_word ∈ s.word_history then
      ({ s with game_over := true
                message := "게임 오버! 플레이어 " ++ s.current_player.name ++ "님, '" ++
                  new_word ++ "'는 이미 사용된 단어입니다." },
       .gameOverDuplicateWord new_word)
    else
      let acceptResult : GameState × Outcome :=
        ({ s with word_history := s.word_history ++ [new_word]
                  last_word := new_word
                  message := "플레이어 " ++ s.current_player.name ++ "님이 '" ++
                    new_word ++ "'를 성공적으로 추가했습니다."
                  current_player := s.current_player.other
                  current_turn :=
                    if s.current_player = Player.A then s.current_turn
                    else s.current_turn + 1
                  input_key_counter := s.input_key_counter + 1 },
         .accepted new_word)
      if s.last_word ≠ "" then
        if new_word.front ≠ s.last_word.back then
          ({ s with game_over := true
                    message := "게임 오버! 플레이어 " ++ s.current_player.name ++ "님, '" ++
                      new_word ++ "'는 '" ++ String.mk [s.last_word.back] ++
                      "'로 시작하지 않습니다." },
           .gameOverChainBroken new_word)
        else acceptResult
      else acceptResult

/-- States reachable through `src/main.py` `main`: the first page load
initializes with no stored counter (`get` returns `0`), resets carry the
counter of the state they replace, and submissions only happen against
non-terminal states (`main` returns early when `game_over` is set). -/
inductive Reachable : GameState → Prop where
  | init : Reachable (initialize_game 0)
  | reset {s : GameState} : Reachable s → Reachable (initialize_game s.input_key_counter)
  | submit {s : GameState} (input : String) :
      Reachable s → s.game_over = false → Reachable (submitWord s input).1

end Main

/-! ### Branch characterizations of the two submit handlers -/

theorem pyStrip_empty : pyStrip "" = "" := rfl

theorem App.submitWord_empty (s : App.GameState) (input : String)
    (h : pyStrip input = "") :
    App.submitWord s input =
      ({ s with message := "단어를 입력해주세요!" }, .rejectedEmptyInput) := by
  by_cases h0 : input = ""
  · simp [App.submitWord, h0]
  · simp [App.submitWord, h0, h]

theorem App.submitWord_dup (s : App.GameState) (input : String)
    (h1 : pyStrip input ≠ "") (h2 : pyStrip input ∈ s.word_history) :
    App.submitWord s input =
      ({ s with game_over := true
                message := "게임 오버! '" ++ pyStrip input ++ "'는 이미 사용된 단어입니다." },
       .gameOverDuplicateWord (pyStrip input)) := by
  have h0 : input ≠ "" := fun he => h1 (he ▸ pyStrip_empty)
  simp [App.submitWord, h0, h1, h2]

theorem App.submitWord_chain (s : App.GameState) (input : String)
    (h1 : pyStrip input ≠ "") (h2 : pyStrip input ∉ s.word_history)
    (h3 : s.last_word ≠ "") (h4 : (pyStrip input).front ≠ s.last_word.back) :
    App.submitWord s input =
      ({ s with game_over := true
                message := "게임 오버! '" ++ pyStrip input ++ "'는 '" ++
                  String.mk [s.last_word.back] ++ "'로 시작하지 않습니다." },
       .gameOverChainBroken (pyStrip input)) := by
  have h0 : input ≠ "" := fun he => h1 (he ▸ pyStrip_empty)
  simp [App.submitWord, h0, h1, h2, h3, h4]

theorem App.submitWord_accept (s : App.GameState) (input : String)
    (h1 : pyStrip input ≠ "") (h2 : pyStrip input ∉ s.word_history)
    (h3 : s.last_word = "" ∨ (pyStrip input).front = s.last_word.back) :
    App.submitWord s input =
      ({ s with word_history := s.word_history ++ [pyStrip input]
                last_word := pyStrip input
                current_turn := s.current_turn + 1
                message := "'" ++ pyStrip input ++ "'가 성공적으로 추가되었습니다." },
       .accepted (pyStrip input)) := by
  have h0 : input ≠ "" := fun he => h1 (he ▸ pyStrip_empty)
  rcases h3 with h3 | h3
  · simp [App.submitWord, h0, h1, h2, h3]
  · by_cases h4 : s.last_word = ""
    · simp [App.submitWord, h0, h1, h2, h4]
    · simp [App.submitWord, h0, h1, h2, h3, h4]

theorem Main.submitWord_empty_two (s : Main.GameState) (input : String)
    (h : pyStrip input = "") :
    Main.submitWord s input =
      ({ s with message := "단어를 입력해주세요!" }, .rejectedEmptyInput) := by
  by_cases h0 : input = ""
  · simp [Main.submitWord, h0]
  · simp [Main.submitWord, h0, h]

theorem Main.submitWord_dup_two (s : Main.GameState) (input : String)
    (h1 : pyStrip input ≠ "") (h2 : pyStrip input ∈ s.word_history) :
    Main.submitWord s input =
      ({ s with game_over := true
                message := "게임 오버! 플레이어 " ++ s.current_player.name ++ "님, '" ++
                  pyStrip input ++ "'는 이미 사용된 단어입니다." },
       .gameOverDuplicateWord (pyStrip input)) := by
  have h0 : input ≠ "" := fun he => h1 (he ▸ pyStrip_empty)
  simp [Main.submitWord, h0, h1, h2]

theorem Main.submitWord_chain_two (s : Main.GameState) (input : String)
    (h1 : pyStrip input ≠ "") (h2 : pyStrip input ∉ s.word_history)
    (h3 : s.last_word ≠ "") (h4 : (pyStrip input).front ≠ s.last_word.back) :
    Main.submitWord s input =
      ({ s with game_over := true
                message := "게임 오버! 플레이어 " ++ s.current_player.name ++ "님, '" ++
                  pyStrip input ++ "'는 '" ++ String.mk [s.last_word.back] ++
                  "'로 시작하지 않습니다." },
       .gameOverChainBroken (pyStrip input)) := by
  have h0 : input ≠ "" := fun he => h1 (he ▸ pyStrip_empty)
  simp [Main.submitWord, h0, h1, h2, h3, h4]

theorem Main.submitWord_accept_two (s : Main.GameState) (input : String)
    (h1 : pyStrip input ≠ "") (h2 : pyStrip input ∉ s.word_history)
    (h3 : s.last_word = "" ∨ (pyStrip input).front = s.last_word.back) :
    Main.submitWord s input =
      ({ s with word_history := s.word_history ++ [pyStrip input]
                last_word := pyStrip input
                message := "플레이어 " ++ s.current_player.name ++ "님이 '" ++
                  pyStrip input ++ "'를 성공적으로 추가했습니다."
                current_player := s.current_player.other
                current_turn :=
                  if s.current_player = Main.Player.A then s.current_turn
                  else s.current_turn + 1
                input_key_counter := s.input_key_counter + 1 },
       .accepted (pyStrip input)) := by
  have h0 : input ≠ "" := fun he => h1 (he ▸ pyStrip_empty)
  rcases h3 with h3 | h3
  · simp [Main.submitWord, h0, h1, h2, h3]
  · by_cases h4 : s.last_word = ""
    · simp [Main.submitWord, h0, h1, h2, h4]
    · simp [Main.submitWord, h0, h1, h2, h3, h4]

/-! ### Inversion and shape lemmas -/

theorem App.accepted_inv (s : App.GameState) (input : String)
    (h : (App.submitWord s input).2.isAccepted = true) :
    pyStrip input ≠ "" ∧ pyStrip input ∉ s.word_history ∧
      (s.last_word = "" ∨ (pyStrip input).front = s.last_word.back) := by
  by_cases h1 : pyStrip input = ""
  · rw [App.submitWord_empty s input h1] at h; simp [Outcome.isAccepted] at h
  · by_cases h2 : pyStrip input ∈ s.word_history
    · rw [App.submitWord_dup s input h1 h2] at h; simp [Outcome.isAccepted] at h
    · by_cases h3 : s.last_word = ""
      · exact ⟨h1, h2, Or.inl h3⟩
      · by_cases h4 : (pyStrip input).front = s.last_word.back
        · exact ⟨h1, h2, Or.inr h4⟩
        · rw [App.submitWord_chain s input h1 h2 h3 h4] at h
          simp [Outcome.isAccepted] at h

theorem Main.accepted_inv_two (s : Main.GameState) (input : String)
    (h : (Main.submitWord s input).2.isAccepted = true) :
    pyStrip input ≠ "" ∧ pyStrip input ∉ s.word_history ∧
      (s.last_word = "" ∨ (pyStrip input).front = s.last_word.back) := by
  by_cases h1 : pyStrip input = ""
  · rw [Main.submitWord_empty_two s input h1] at h; simp [Outcome.isAccepted] at h
  · by_cases h2 : pyStrip input ∈ s.word_history
    · rw [Main.submitWord_dup_two s input h1 h2] at h; simp [Outcome.isAccepted] at h
    · by_cases h3 : s.last_word = ""
      · exact ⟨h1, h2, Or.inl h3⟩
      · by_cases h4 : (pyStrip input).front = s.last_word.back
        · exact ⟨h1, h2, Or.inr h4⟩
        · rw [Main.submitWord_chain_two s input h1 h2 h3 h4] at h
          simp [Outcome.isAccepted] at h

theorem App.submit_shape (s : App.GameState) (input : String) :
    (App.submitWord s input).1.word_history = s.word_history ∨
    (pyStrip input ∉ s.word_history ∧
      (App.submitWord s input).1.word_history = s.word_history ++ [pyStrip input]) := by
  by_cases h1 : pyStrip input = ""
  · rw [App.submitWord_empty s input h1]; exact Or.inl rfl
  · by_cases h2 : pyStrip input ∈ s.word_history
    · rw [App.submitWord_dup s input h1 h2]; exact Or.inl rfl
    · by_cases h3 : s.last_word = ""
      · rw [App.submitWord_accept s input h1 h2 (Or.inl h3)]; exact Or.inr ⟨h2, rfl⟩
      · by_cases h4 : (pyStrip input).front = s.last_word.back
        · rw [App.submitWord_accept s input h1 h2 (Or.inr h4)]; exact Or.inr ⟨h2, rfl⟩
        · rw [App.submitWord_chain s input h1 h2 h3 h4]; exact Or.inl rfl

theorem Main.submit_shape_two (s : Main.GameState) (input : String) :
    ((Main.submitWord s input).1.word_history = s.word_history ∧
     (Main.submitWord s input).1.current_turn = s.current_turn ∧
     (Main.submitWord s input).1.current_player = s.current_player) ∨
    (pyStrip input ∉ s.word_history ∧
     (Main.submitWord s input).1.word_history = s.word_history ++ [pyStrip input] ∧
     (Main.submitWord s input).1.current_player = s.current_player.other ∧
     (Main.submitWord s input).1.current_turn =
       (if s.current_player = Main.Player.A then s.current_turn else s.current_turn + 1)) := by
  by_cases h1 : pyStrip input = ""
  · rw [Main.submitWord_empty_two s input h1]; exact Or.inl ⟨rfl, rfl, rfl⟩
  · by_cases h2 : pyStrip input ∈ s.word_history
    · rw [Main.submitWord_dup_two s input h1 h2]; exact Or.inl ⟨rfl, rfl, rfl⟩
    · by_cases h3 : s.last_word = ""
      · rw [Main.submitWord_accept_two s input h1 h2 (Or.inl h3)]
        exact Or.inr ⟨h2, rfl, rfl, rfl⟩
      · by_cases h4 : (pyStrip input).front = s.last_word.back
        · rw [Main.submitWord_accept_two s input h1 h2 (Or.inr h4)]
          exact Or.inr ⟨h2, rfl, rfl, rfl⟩
        · rw [Main.submitWord_chain_two s input h1 h2 h3 h4]; exact Or.inl ⟨rfl, rfl, rfl⟩

/-- The turn counter and active player of the two-player engine are
determined by the number of accepted words, on every reachable state. -/
theorem Main.reachable_inv (s : Main.GameState) (h : Main.Reachable s) :
    s.current_player =
        (if s.word_history.length % 2 = 0 then Main.Player.A else Main.Player.B) ∧
    s.current_turn = s.word_history.length / 2 + 1 := by
  induction h with
  | init => exact ⟨rfl, by simp [Main.initialize_game]⟩
  | reset _ _ => exact ⟨rfl, by simp [Main.initialize_game]⟩
  | submit input hr hg ih =>
    rename_i s
    rcases Main.submit_shape_two s input with ⟨e1, e2, e3⟩ | ⟨_, e1, e2, e3⟩
    · rw [e1, e2, e3]; exact ih
    · obtain ⟨ih1, ih2⟩ := ih
      rw [e1, e2, e3, ih1, ih2]
      simp only [List.length_append, List.length_singleton]
      by_cases hn : s.word_history.length % 2 = 0
      · have hm : (s.word_history.length + 1) % 2 = 1 := by omega
        have hd : (s.word_history.length + 1) / 2 = s.word_history.length / 2 := by omega
        simp [hn, hm, hd, Main.Player.other]
      · have h0 : s.word_history.length % 2 = 1 := by omega
        have hm : (s.word_history.length + 1) % 2 = 0 := by omega
        have hd : (s.word_history.length + 1) / 2 = s.word_history.length / 2 + 1 := by omega
        simp [h0, hm, hd, Main.Player.other, hn]

/-! ### Claims -/

/-- C1: in both engines, a submission whose trimmed word is non-empty, not
already in the history, and satisfying the chaining rule (first character
equals the last character of `last_word`, or `last_word` is empty) is
accepted, and the history grows by exactly one element — the trimmed word
appended after the unchanged prior elements. -/
theorem claim_C1 :
    (∀ (s : App.GameState) (input : String),
      pyStrip input ≠ "" → pyStrip input ∉ s.word_history →
      (s.last_word = "" ∨ (pyStrip input).front = s.last_word.back) →
      (App.submitWord s input).2 = Outcome.accepted (pyStrip input) ∧
      (App.submitWord s input).1.word_history = s.word_history ++ [pyStrip input]) ∧
    (∀ (s : Main.GameState) (input : String),
      pyStrip input ≠ "" → pyStrip input ∉ s.word_history →
      (s.last_word = "" ∨ (pyStrip input).front = s.last_word.back) →
      (Main.submitWord s input).2 = Outcome.accepted (pyStrip input) ∧
      (Main.submitWord s input).1.word_history = s.word_history ++ [pyStrip input]) := by
  constructor
  · intro s input h1 h2 h3
    rw [App.submitWord_accept s input h1 h2 h3]
    exact ⟨rfl, rfl⟩
  · intro s input h1 h2 h3
    rw [Main.submitWord_accept_two s input h1 h2 h3]
    exact ⟨rfl, rfl⟩

/-- Witness for C1 at a fresh solo state and the word `"apple"`. -/
theorem claim_C1_witness :
    (App.submitWord App.initialize_game "apple").2 = Outcome.accepted (pyStrip "apple") ∧
    (App.submitWord App.initialize_game "apple").1.word_history =
      App.initialize_game.word_history ++ [pyStrip "apple"] :=
  claim_C1.1 App.initialize_game "apple" (by decide) (by decide) (Or.inl rfl)

/-- C2: in both engines, a non-empty trimmed word that already appears
(case-sensitive exact match) in the history of a non-terminal state ends
the game with the duplicate-word outcome, sets `game_over`, and does not
append the word a second time — regardless of the chaining rule, since the
duplicate check runs before the chaining check. -/
theorem claim_C2 :
    (∀ (s : App.GameState) (input : String),
      s.game_over = false → pyStrip input ≠ "" → pyStrip input ∈ s.word_history →
      (App.submitWord s input).2 = Outcome.gameOverDuplicateWord (pyStrip input) ∧
      (App.submitWord s input).1.game_over = true ∧
      (App.submitWord s input).1.word_history = s.word_history) ∧
    (∀ (s : Main.GameState) (input : String),
      s.game_over = false → pyStrip input ≠ "" → pyStrip input ∈ s.word_history →
      (Main.submitWord s input).2 = Outcome.gameOverDuplicateWord (pyStrip input) ∧
      (Main.submitWord s input).1.game_over = true ∧
      (Main.submitWord s input).1.word_history = s.word_history) := by
  constructor
  · intro s input _ h1 h2
    rw [App.submitWord_dup s input h1 h2]
    exact ⟨rfl, rfl, rfl⟩
  · intro s input _ h1 h2
    rw [Main.submitWord_dup_two s input h1 h2]
    exact ⟨rfl, rfl, rfl⟩

/-- Witness for C2: `"apple"` resubmitted after `"apple"`; it also violates
the chain rule (`'a' ≠ 'e'`), yet the duplicate outcome is returned. -/
theorem claim_C2_witness :
    (App.submitWord ⟨["apple"], 2, "apple", false, ""⟩ "apple").2 =
        Outcome.gameOverDuplicateWord (pyStrip "apple") ∧
    (App.submitWord ⟨["apple"], 2, "apple", false, ""⟩ "apple").1.game_over = true ∧
    (App.submitWord ⟨["apple"], 2, "apple", false, ""⟩ "apple").1.word_history = ["apple"] :=
  claim_C2.1 ⟨["apple"], 2, "apple", false, ""⟩ "apple" rfl (by decide) (by decide)

/-- C3: in both engines, a non-empty trimmed word not in the history, whose
first character differs from the last character of a non-empty `last_word`,
ends the game with the chain-broken outcome and sets `game_over`. -/
theorem claim_C3 :
    (∀ (s : App.GameState) (input : String),
      pyStrip input ≠ "" → pyStrip input ∉ s.word_history →
      s.last_word ≠ "" → (pyStrip input).front ≠ s.last_word.back →
      (App.submitWord s input).2 = Outcome.gameOverChainBroken (pyStrip input) ∧
      (App.submitWord s input).1.game_over = true) ∧
    (∀ (s : Main.GameState) (input : String),
      pyStrip input ≠ "" → pyStrip input ∉ s.word_history →
      s.last_word ≠ "" → (pyStrip input).front ≠ s.last_word.back →
      (Main.submitWord s input).2 = Outcome.gameOverChainBroken (pyStrip input) ∧
      (Main.submitWord s input).1.game_over = true) := by
  constructor
  · intro s input h1 h2 h3 h4
    rw [App.submitWord_chain s input h1 h2 h3 h4]
    exact ⟨rfl, rfl⟩
  · intro s input h1 h2 h3 h4
    rw [Main.submitWord_chain_two s input h1 h2 h3 h4]
    exact ⟨rfl, rfl⟩

/-- Witness for C3: `"banana"` after `"apple"` (`'b' ≠ 'e'`). -/
theorem claim_C3_witness :
    (App.submitWord ⟨["apple"], 2, "apple", false, ""⟩ "banana").2 =
        Outcome.gameOverChainBroken (pyStrip "banana") ∧
    (App.submitWord ⟨["apple"], 2, "apple", false, ""⟩ "banana").1.game_over = true :=
  claim_C3.1 ⟨["apple"], 2, "apple", false, ""⟩ "banana"
    (by decide) (by decide) (by decide) (by decide)

/-- C4: two-player engine: from a fresh state (player `A`), one accepted
submission makes `B` active with `current_turn` still `1`, and a second
consecutive accepted submission makes `A` active with `current_turn = 2`;
in general every accepted submission toggles the player and increments the
turn counter exactly when the active player was `B` (control returning
to `A`). -/
theorem claim_C4 :
    (∀ (k : Nat) (w1 w2 : String),
      (Main.submitWord (Main.initialize_game k) w1).2.isAccepted = true →
      ((Main.submitWord (Main.initialize_game k) w1).1.current_player = Main.Player.B ∧
       (Main.submitWord (Main.initialize_game k) w1).1.current_turn = 1) ∧
      ((Main.submitWord (Main.submitWord (Main.initialize_game k) w1).1 w2).2.isAccepted =
          true →
        (Main.submitWord (Main.submitWord (Main.initialize_game k) w1).1 w2).1.current_player =
          Main.Player.A ∧
        (Main.submitWord (Main.submitWord (Main.initialize_game k) w1).1 w2).1.current_turn =
          2)) ∧
    (∀ (s : Main.GameState) (input : String),
      (Main.submitWord s input).2.isAccepted = true →
      (Main.submitWord s input).1.current_player = s.current_player.other ∧
      (Main.submitWord s input).1.current_turn =
        (if s.current_player = Main.Player.A then s.current_turn
         else s.current_turn + 1)) := by
  constructor
  · intro k w1 w2 hacc1
    obtain ⟨a1, a2, a3⟩ := Main.accepted_inv_two _ _ hacc1
    rw [Main.submitWord_accept_two _ _ a1 a2 a3]
    refine ⟨⟨rfl, rfl⟩, ?_⟩
    intro hacc2
    obtain ⟨b1, b2, b3⟩ := Main.accepted_inv_two _ _ hacc2
    rw [Main.submitWord_accept_two _ _ b1 b2 b3]
    exact ⟨rfl, rfl⟩
  · intro s input hacc
    obtain ⟨a1, a2, a3⟩ := Main.accepted_inv_two _ _ hacc
    rw [Main.submitWord_accept_two _ _ a1 a2 a3]
    exact ⟨rfl, rfl⟩

/-- Witness for C4 at the fresh two-player state with words
`"apple"` then `"elephant"`. -/
theorem claim_C4_witness :
    ((Main.submitWord (Main.initialize_game 0) "apple").1.current_player = Main.Player.B ∧
     (Main.submitWord (Main.initialize_game 0) "apple").1.current_turn = 1) ∧
    ((Main.submitWord (Main.submitWord (Main.initialize_game 0) "apple").1
        "elephant").2.isAccepted = true →
      (Main.submitWord (Main.submitWord (Main.initialize_game 0) "apple").1
          "elephant").1.current_player = Main.Player.A ∧
      (Main.submitWord (Main.submitWord (Main.initialize_game 0) "apple").1
          "elephant").1.current_turn = 2) :=
  claim_C4.1 0 "apple" "elephant" (by decide)

/-- C5 counterexample: on the fresh solo state and empty input, the outcome
is the empty-input rejection, but the state is NOT fully unchanged: the
`message` field is overwritten with the retry prompt. -/
theorem claim_C5_counterexample :
    (App.submitWord App.initialize_game "").2 = Outcome.rejectedEmptyInput ∧
    (App.submitWord App.initialize_game "").1.message ≠ App.initialize_game.message := by
  exact ⟨rfl, by decide⟩

/-- C5 (amended): in both engines, input whose trimmed form is empty yields
the empty-input rejection; every field except `message` is unchanged (in
particular `game_over` keeps its value, so the outcome is not terminal),
and `message` is set to the retry prompt. -/
theorem claim_C5 :
    (∀ (s : App.GameState) (input : String), pyStrip input = "" →
      App.submitWord s input =
        ({ s with message := "단어를 입력해주세요!" }, Outcome.rejectedEmptyInput)) ∧
    (∀ (s : Main.GameState) (input : String), pyStrip input = "" →
      Main.submitWord s input =
        ({ s with message := "단어를 입력해주세요!" }, Outcome.rejectedEmptyInput)) :=
  ⟨App.submitWord_empty, Main.submitWord_empty_two⟩

/-- Witness for C5 (amended) at the fresh solo state and whitespace input. -/
theorem claim_C5_witness :
    App.submitWord App.initialize_game "   " =
      ({ App.initialize_game with message := "단어를 입력해주세요!" },
       Outcome.rejectedEmptyInput) :=
  claim_C5.1 App.initialize_game "   " (by decide)

/-- C6: in both engines, a whitespace-only (or empty) input submitted
against a non-terminal state leaves `word_history`, `last_word`,
`current_turn` and (in the two-player engine) `current_player` exactly as
they were, and `game_over` stays `false`. -/
theorem claim_C6 :
    (∀ (s : App.GameState) (input : String), pyStrip input = "" →
      s.game_over = false →
      (App.submitWord s input).1.word_history = s.word_history ∧
      (App.submitWord s input).1.last_word = s.last_word ∧
      (App.submitWord s input).1.current_turn = s.current_turn ∧
      (App.submitWord s input).1.game_over = false) ∧
    (∀ (s : Main.GameState) (input : String), pyStrip input = "" →
      s.game_over = false →
      (Main.submitWord s input).1.word_history = s.word_history ∧
      (Main.submitWord s input).1.last_word = s.last_word ∧
      (Main.submitWord s input).1.current_turn = s.current_turn ∧
      (Main.submitWord s input).1.current_player = s.current_player ∧
      (Main.submitWord s input).1.game_over = false) := by
  constructor
  · intro s input h hg
    rw [App.submitWord_empty s input h]
    exact ⟨rfl, rfl, rfl, hg⟩
  · intro s input h hg
    rw [Main.submitWord_empty_two s input h]
    exact ⟨rfl, rfl, rfl, rfl, hg⟩

/-- Witness for C6 at the fresh two-player state and whitespace input. -/
theorem claim_C6_witness :
    (Main.submitWord (Main.initialize_game 0) " ").1.word_history =
        (Main.initialize_game 0).word_history ∧
    (Main.submitWord (Main.initialize_game 0) " ").1.last_word =
        (Main.initialize_game 0).last_word ∧
    (Main.submitWord (Main.initialize_game 0) " ").1.current_turn =
        (Main.initialize_game 0).current_turn ∧
    (Main.submitWord (Main.initialize_game 0) " ").1.current_player =
        (Main.initialize_game 0).current_player ∧
    (Main.submitWord (Main.initialize_game 0) " ").1.game_over = false :=
  claim_C6.2 (Main.initialize_game 0) " " (by decide) rfl

/-- C7: solo engine: `current_turn` increments by exactly one on every
accepted submission and stays unchanged on every other outcome; from the
fresh state, submitting `"apple"` is accepted with history `["apple"]` and
`current_turn = 2`. -/
theorem claim_C7 :
    (∀ (s : App.GameState) (input : String),
      ((App.submitWord s input).2.isAccepted = true →
        (App.submitWord s input).1.current_turn = s.current_turn + 1) ∧
      ((App.submitWord s input).2.isAccepted = false →
        (App.submitWord s input).1.current_turn = s.current_turn)) ∧
    ((App.submitWord App.initialize_game "apple").2 = Outcome.accepted "apple" ∧
     (App.submitWord App.initialize_game "apple").1.word_history = ["apple"] ∧
     (App.submitWord App.initialize_game "apple").1.current_turn = 2) := by
  constructor
  · intro s input
    constructor
    · intro h
      obtain ⟨h1, h2, h3⟩ := App.accepted_inv s input h
      rw [App.submitWord_accept s input h1 h2 h3]
    · intro h
      by_cases h1 : pyStrip input = ""
      · rw [App.submitWord_empty s input h1]
      · by_cases h2 : pyStrip input ∈ s.word_history
        · rw [App.submitWord_dup s input h1 h2]
        · by_cases h3 : s.last_word = ""
          · rw [App.submitWord_accept s input h1 h2 (Or.inl h3)] at h
            simp [Outcome.isAccepted] at h
          · by_cases h4 : (pyStrip input).front = s.last_word.back
            · rw [App.submitWord_accept s input h1 h2 (Or.inr h4)] at h
              simp [Outcome.isAccepted] at h
            · rw [App.submitWord_chain s input h1 h2 h3 h4]
  · exact ⟨by decide, by decide, by decide⟩

/-- Witness for C7: an accepted word bumps the turn, a rejected one
does not. -/
theorem claim_C7_witness :
    (App.submitWord App.initialize_game "pear").1.current_turn =
        App.initialize_game.current_turn + 1 ∧
    (App.submitWord App.initialize_game "  ").1.current_turn =
        App.initialize_game.current_turn :=
  ⟨(claim_C7.1 App.initialize_game "pear").1 (by decide),
   (claim_C7.1 App.initialize_game "  ").2 (by decide)⟩

/-- C8: in both engines, every state reachable from initialization by any
sequence of submissions and resets has a duplicate-free history
(case-sensitive exact string equality). -/
theorem claim_C8 :
    (∀ s : App.GameState, App.Reachable s → s.word_history.Nodup) ∧
    (∀ s : Main.GameState, Main.Reachable s → s.word_history.Nodup) := by
  constructor
  · intro s h
    induction h with
    | init => simp [App.initialize_game]
    | reset _ _ => simp [App.initialize_game]
    | submit input hr hg ih =>
      rename_i s
      rcases App.submit_shape s input with e | ⟨hmem, e⟩
      · rw [e]; exact ih
      · rw [e]
        exact ih.append (List.nodup_singleton _) (List.disjoint_singleton.mpr hmem)
  · intro s h
    induction h with
    | init => simp [Main.initialize_game]
    | reset _ _ => simp [Main.initialize_game]
    | submit input hr hg ih =>
      rename_i s
      rcases Main.submit_shape_two s input with ⟨e, _, _⟩ | ⟨hmem, e, _, _⟩
      · rw [e]; exact ih
      · rw [e]
        exact ih.append (List.nodup_singleton _) (List.disjoint_singleton.mpr hmem)

/-- Witness for C8 at a two-step reachable solo state. -/
theorem claim_C8_witness :
    (App.submitWord (App.submitWord App.initialize_game "apple").1
        "elephant").1.word_history.Nodup :=
  claim_C8.1 _
    (App.Reachable.submit "elephant" (App.Reachable.submit "apple" App.Reachable.init rfl)
      (by decide))

/-- C9: initialization produces the same fresh observable state regardless
of what was held before: empty history, `current_turn = 1`, empty
`last_word`, `game_over = false`, and in the two-player engine the starting
player `A` — for every value of the carried-over widget-key counter. -/
theorem claim_C9 :
    (App.initialize_game.word_history = [] ∧
     App.initialize_game.current_turn = 1 ∧
     App.initialize_game.last_word = "" ∧
     App.initialize_game.game_over = false) ∧
    (∀ k : Nat,
      (Main.initialize_game k).word_history = [] ∧
      (Main.initialize_game k).current_turn = 1 ∧
      (Main.initialize_game k).last_word = "" ∧
      (Main.initialize_game k).game_over = false ∧
      (Main.initialize_game k).current_player = Main.Player.A) :=
  ⟨⟨rfl, rfl, rfl, rfl⟩, fun _ => ⟨rfl, rfl, rfl, rfl, rfl⟩⟩

/-- C10: two-player engine: on every reachable non-terminal state the
active player is `A` exactly when the history length is even, and
`current_turn` equals the history length divided by two, plus one. -/
theorem claim_C10 (s : Main.GameState) (hr : Main.Reachable s)
    (_hn : s.game_over = false) :
    (s.current_player = Main.Player.A ↔ s.word_history.length % 2 = 0) ∧
    s.current_turn = s.word_history.length / 2 + 1 := by
  obtain ⟨h1, h2⟩ := Main.reachable_inv s hr
  refine ⟨?_, h2⟩
  rw [h1]
  by_cases he : s.word_history.length % 2 = 0
  · simp [he]
  · simp [he]

/-- Witness for C10 at the state reached by one accepted word. -/
theorem claim_C10_witness :
    (((Main.submitWord (Main.initialize_game 0) "apple").1.current_player = Main.Player.A ↔
      (Main.submitWord (Main.initialize_game 0) "apple").1.word_history.length % 2 = 0) ∧
     (Main.submitWord (Main.initialize_game 0) "apple").1.current_turn =
       (Main.submitWord (Main.initialize_game 0) "apple").1.word_history.length / 2 + 1) :=
  claim_C10 _ (Main.Reachable.submit "apple" Main.Reachable.init rfl) (by decide)
